import Mathlib

/-!
A verification development for the precise_lite_runner streaming wake-word
detector.  The Python source (precise_lite_runner/params.py and
precise_lite_runner/runner.py) is shallowly embedded below: Python floats are
modelled as rationals, Python ints as Lean integers (with Python floor
division written Int.fdiv and Python int() truncation written pyInt), byte
strings as lists of naturals, numpy arrays as lists of rationals, and raised
exceptions as Except error values.  The external collaborators (the MFCC
vectorizer, the TFLite inference engine and the threshold decoder) are out of
scope of the streaming core and are treated as abstract function parameters.
-/

namespace PreciseLite

/-- Python int() conversion applied to a rational: truncation toward zero,
written with floors (int(x) = floor x for x ≥ 0 and -floor(-x) for x < 0). -/
def pyInt (x : ℚ) : Int := if 0 ≤ x then ⌊x⌋ else -⌊-x⌋

/-- Python slicing l[-k:] for a nonnegative index k.  For 0 < k it keeps the
last k elements (the whole list when k exceeds the length); for k = 0 Python
evaluates -0 to 0, so l[-0:] = l[0:] is the WHOLE list, not the empty one. -/
def pyTailSlice {α : Type} (l : List α) (k : Nat) : List α :=
  if k = 0 then l else l.drop (l.length - k)

/-- Embedding of params.ListenerParams: the configuration record.  The Python
class has only class-level attribute defaults and no __init__, so an instance
is just this record of field values. -/
structure ListenerParams where
  window_t : ℚ
  hop_t : ℚ
  buffer_t : ℚ
  sample_rate : ℚ
  sample_depth : Nat
  n_mfcc : Nat
  n_filt : Nat
  n_fft : Nat
  use_delta : Bool
  vectorizer : Nat
  threshold_config : List (Int × Int)
  threshold_center : ℚ

/-- params.ListenerParams.window_samples: int(sample_rate * window_t + 0.5). -/
def ListenerParams.window_samples (p : ListenerParams) : Int :=
  pyInt (p.sample_rate * p.window_t + 1 / 2)

/-- params.ListenerParams.hop_samples: int(sample_rate * hop_t + 0.5). -/
def ListenerParams.hop_samples (p : ListenerParams) : Int :=
  pyInt (p.sample_rate * p.hop_t + 1 / 2)

/-- params.ListenerParams.buffer_samples: hop_samples * (samples // hop_samples)
where samples = int(sample_rate * buffer_t + 0.5); Python // on ints is floor
division (Int.fdiv).  (Python raises ZeroDivisionError when hop_samples = 0;
Lean fdiv returns 0 there; no claim is evaluated at hop_samples = 0.) -/
def ListenerParams.buffer_samples (p : ListenerParams) : Int :=
  p.hop_samples * (Int.fdiv (pyInt (p.sample_rate * p.buffer_t + 1 / 2)) p.hop_samples)

/-- params.ListenerParams.n_features: 1 + int(floor((buffer_samples -
window_samples) / hop_samples)), true division then floor. -/
def ListenerParams.n_features (p : ListenerParams) : Int :=
  1 + Int.floor (((p.buffer_samples - p.window_samples : Int) : ℚ) / ((p.hop_samples : Int) : ℚ))

/-- params.ListenerParams.max_samples: int(buffer_t * sample_rate). -/
def ListenerParams.max_samples (p : ListenerParams) : Int :=
  pyInt (p.buffer_t * p.sample_rate)

/-- params.ListenerParams.feature_size: dict lookup on the vectorizer code
(mels = 1 uses n_filt, mfccs = 2 and speechpy_mfccs = 3 use n_mfcc), doubled
when use_delta. -/
def ListenerParams.feature_size (p : ListenerParams) : Nat :=
  if p.use_delta then 2 * (if p.vectorizer = 1 then p.n_filt else p.n_mfcc)
  else (if p.vectorizer = 1 then p.n_filt else p.n_mfcc)

/-- Constructing a ListenerParams instance.  The Python class defines no
__init__ and performs no validation whatsoever, so instantiation cannot fail:
the embedding returns some of the record for every argument combination
(none would model a constructor that raises). -/
def mkListenerParams (window_t hop_t buffer_t sample_rate : ℚ)
    (sample_depth n_mfcc n_filt n_fft : Nat) (use_delta : Bool) (vectorizer : Nat)
    (threshold_config : List (Int × Int)) (threshold_center : ℚ) :
    Option ListenerParams :=
  some ⟨window_t, hop_t, buffer_t, sample_rate, sample_depth, n_mfcc, n_filt,
    n_fft, use_delta, vectorizer, threshold_config, threshold_center⟩

/-- The module-level default instance params = ListenerParams() with the
class-attribute defaults (window_t=1.0, hop_t=0.02, buffer_t=1.96,
sample_rate=16000, sample_depth=2, n_mfcc=13, n_filt=32, n_fft=256,
use_delta=False, vectorizer=mfccs=2, threshold_config=((6,4),),
threshold_center=0.2). -/
def defaultParams : ListenerParams :=
  ⟨1, 1 / 50, 196 / 100, 16000, 2, 13, 32, 256, false, 2, [(6, 4)], 1 / 5⟩

/-- A ListenerParams instance with buffer_t = 0.5 < window_t = 1.0 (an invalid
combination per the spec: bufferSeconds < windowSeconds), all other fields at
their defaults. -/
def lpInvalid : ListenerParams :=
  ⟨1, 1 / 50, 1 / 2, 16000, 2, 13, 32, 256, false, 2, [(6, 4)], 1 / 5⟩

/-! ## runner.ReadWriteStream -/

/-- State of runner.ReadWriteStream: the byte buffer (bytes modelled as a
list of naturals) and the chop_samples threshold (default -1 in the source).
The threading Event used for blocking waits carries no data and is not
modelled (single-threaded view of the buffer). -/
structure RWStream where
  buffer : List Nat
  chop_samples : Int

/-- runner.ReadWriteStream.write: appends to the buffer (and sets the write
event, which is not modelled). -/
def rwsWrite (s : RWStream) (bs : List Nat) : RWStream :=
  { s with buffer := s.buffer ++ bs }

/-- The chopping phase at the top of runner.ReadWriteStream.read: when
0 < chop_samples < len(buffer), the source executes
  samples_left = len(self.buffer) % self.chop_samples
  self.buffer = self.buffer[-samples_left:]
pyTailSlice embeds the Python slice, including the b[-0:] = b case. -/
def rwsChop (s : RWStream) : RWStream :=
  if 0 < s.chop_samples ∧ s.chop_samples < (s.buffer.length : Int) then
    { s with buffer := pyTailSlice s.buffer (s.buffer.length % s.chop_samples.toNat) }
  else s

/-- runner.ReadWriteStream.read(n) in the single-threaded view: n = -1 is
replaced by the current length, then the chop phase runs, then if at least n
bytes are available the first n are removed and returned; otherwise the
blocking wait is modelled as an elapsed timeout, returning the empty byte
string with the (chopped) buffer left in place. -/
def rwsRead (s : RWStream) (n : Int) : List Nat × RWStream :=
  let s0 := rwsChop s
  let m : Nat := if n = -1 then s.buffer.length else n.toNat
  if m ≤ s0.buffer.length then
    (s0.buffer.take m, { s0 with buffer := s0.buffer.drop m })
  else ([], s0)

/-! ## runner.Listener feature-window state -/

/-- The mutable feature-window state of runner.Listener: window_audio (the
raw-audio tail, a numpy float array modelled as a list of rationals) and
mfccs (the rolling feature matrix, a list of feature frames). -/
structure ListenerState where
  window_audio : List ℚ
  mfccs : List (List ℚ)

/-- Listener.__init__ feature-window initialisation: window_audio = empty,
mfccs = np.zeros((n_features, n_mfcc)). -/
def initListener (n_features n_mfcc : Nat) : ListenerState :=
  ⟨[], List.replicate n_features (List.replicate n_mfcc 0)⟩

/-- Listener.clear: resets window_audio and mfccs exactly as __init__ does.
This method exists in the source but is never invoked by PreciseRunner.start
or PreciseRunner.stop. -/
def clearListener (n_features n_mfcc : Nat) (_st : ListenerState) : ListenerState :=
  initListener n_features n_mfcc

/-- The three shapes of input accepted by Listener.update_vectors: an
already-decoded numpy sample array, a raw bytes/bytearray chunk, or a stream
object whose read(chunk_size) call produced the given bytes. -/
inductive AudioInput where
  | samples (xs : List ℚ)
  | chunk (bs : List Nat)
  | streamRead (bs : List Nat)

/-- Modelled from the spec: util.buffer_to_audio is imported by runner.py but
util.py is not under src/.  Per the spec, raw byte chunks are decoded as
little-endian signed 16-bit mono samples before ingestion; the decoded value
of each byte pair (lo, hi) is lo + 256*hi interpreted as a signed 16-bit
integer. -/
def buffer_to_audio : List Nat → List ℚ
  | lo :: hi :: rest =>
      (((if (lo + 256 * hi : Int) ≥ 32768 then (lo + 256 * hi : Int) - 65536
         else (lo + 256 * hi : Int)) : Int) : ℚ) :: buffer_to_audio rest
  | _ => []

/-- The input-decoding prefix of Listener.update_vectors: a numpy array is
used as-is; bytes/bytearray are taken as the chunk; otherwise the chunk is
stream.read(chunk_size); then a zero-length chunk raises EOFError (error)
and a nonzero chunk is decoded with buffer_to_audio. -/
def decodeInput : AudioInput → Except Unit (List ℚ)
  | .samples xs => .ok xs
  | .chunk bs => if bs.length = 0 then .error () else .ok (buffer_to_audio bs)
  | .streamRead bs => if bs.length = 0 then .error () else .ok (buffer_to_audio bs)

/-- The new_features value after the capacity clamp in Listener.update_vectors:
new_features = vectorize_raw(window_audio) and, when len(new_features) >
len(mfccs), new_features = new_features[-len(self.mfccs):] (Python tail
slice).  The vectorizer is external (out of scope per the spec) and passed as
an abstract function vec. -/
def newFrames (vec : List ℚ → List (List ℚ)) (st : ListenerState)
    (buffer_audio : List ℚ) : List (List ℚ) :=
  if st.mfccs.length < (vec (st.window_audio ++ buffer_audio)).length then
    pyTailSlice (vec (st.window_audio ++ buffer_audio)) st.mfccs.length
  else vec (st.window_audio ++ buffer_audio)

/-- The state mutation of Listener.update_vectors after decoding succeeded:
window_audio = concatenate(window_audio, buffer_audio); then, only if
len(window_audio) >= window_samples: new_features = vectorize_raw(...),
window_audio = window_audio[len(new_features) * hop_samples:], the capacity
clamp (newFrames), and mfccs = concatenate(mfccs[len(new_features):],
new_features). -/
def ingestAudio (vec : List ℚ → List (List ℚ)) (window_samples hop_samples : Nat)
    (st : ListenerState) (buffer_audio : List ℚ) : ListenerState :=
  if window_samples ≤ (st.window_audio ++ buffer_audio).length then
    ⟨(st.window_audio ++ buffer_audio).drop
        ((vec (st.window_audio ++ buffer_audio)).length * hop_samples),
     st.mfccs.drop (newFrames vec st buffer_audio).length ++ newFrames vec st buffer_audio⟩
  else ⟨st.window_audio ++ buffer_audio, st.mfccs⟩

/-- Listener.update_vectors: decode the input (possibly raising EOFError,
before any state mutation), then ingest and return self.mfccs.  The pair
holds the post-call state and the raised-or-returned result; on EOFError the
state is the unchanged pre-call state, because the raise happens before any
assignment to self. -/
def update_vectors (vec : List ℚ → List (List ℚ)) (window_samples hop_samples : Nat)
    (st : ListenerState) (input : AudioInput) :
    ListenerState × Except Unit (List (List ℚ)) :=
  match decodeInput input with
  | .error e => (st, .error e)
  | .ok buffer_audio =>
      (ingestAudio vec window_samples hop_samples st buffer_audio,
       .ok (ingestAudio vec window_samples hop_samples st buffer_audio).mfccs)

/-- Folding update_vectors over a sequence of inputs (the per-chunk ingest
loop of the worker), threading the listener state. -/
def runListener (vec : List ℚ → List (List ℚ)) (window_samples hop_samples : Nat) :
    ListenerState → List AudioInput → ListenerState
  | st, [] => st
  | st, i :: is => runListener vec window_samples hop_samples
      (update_vectors vec window_samples hop_samples st i).1 is

/-! ## runner.TriggerDetector -/

/-- State of runner.TriggerDetector: chunk_size, sensitivity (default 0.5),
trigger_level (default 3) and the integer activation counter starting at 0. -/
structure TriggerDetector where
  chunk_size : Int
  sensitivity : ℚ
  trigger_level : Int
  activation : Int

/-- The cooldown reset value -(8 * 2048) // chunk_size of
TriggerDetector.update; Python // is floor division (Int.fdiv). -/
def cooldownFloor (chunk_size : Int) : Int := Int.fdiv (-(8 * 2048)) chunk_size

/-- runner.TriggerDetector.update: chunk_activated = prob > 1.0 - sensitivity;
if chunk_activated or activation < 0 then increment activation, compute
has_activated = activation > trigger_level on the incremented value, reset
activation to -(8*2048) // chunk_size when has_activated or (chunk_activated
and activation < 0), and return has_activated; elif activation > 0 decrement;
return False otherwise. -/
def TriggerDetector.update (td : TriggerDetector) (prob : ℚ) : Bool × TriggerDetector :=
  if 1 - td.sensitivity < prob ∨ td.activation < 0 then
    if td.trigger_level < td.activation + 1 ∨
        (1 - td.sensitivity < prob ∧ td.activation + 1 < 0) then
      (decide (td.trigger_level < td.activation + 1),
       { td with activation := cooldownFloor td.chunk_size })
    else (false, { td with activation := td.activation + 1 })
  else if 0 < td.activation then (false, { td with activation := td.activation - 1 })
  else (false, td)

/-- Feeding a sequence of probabilities to TriggerDetector.update (the worker
loop calling self.detector.update(prob) once per chunk), collecting the
returned booleans and the final detector state. -/
def runDetector (td : TriggerDetector) : List ℚ → List Bool × TriggerDetector
  | [] => ([], td)
  | p :: ps =>
      ((td.update p).1 :: (runDetector (td.update p).2 ps).1,
       (runDetector (td.update p).2 ps).2)

/-! ## runner.PreciseRunner lifecycle -/

/-- The stream owned by a PreciseRunner: either the pyaudio device stream the
runner opened itself in start() (when constructed with stream=None), or a
caller-supplied ReadWriteStream. -/
inductive StreamSource where
  | device (buf : List Nat)
  | rws (s : RWStream)

/-- The lifecycle state of runner.PreciseRunner: the feature
window, the supplied-or-opened stream (none models self.stream is None), the
pyaudio handle flag (self.pa), the worker-thread handle flag (self.thread)
and the running flag, plus the chunk size and the trigger detector created in
__init__. -/
structure PreciseRunnerState where
  listener : ListenerState
  stream : Option StreamSource
  paActive : Bool
  hasThread : Bool
  running : Bool
  chunk_size : Nat
  detector : TriggerDetector

/-- runner.PreciseRunner.start: if stream is None, open a pyaudio device
stream (pa becomes set); then set running = True and launch the worker thread.
Note: neither self.listener nor self.detector is touched. -/
def PreciseRunnerState.start (r : PreciseRunnerState) : PreciseRunnerState :=
  if r.stream.isNone then
    { r with paActive := true, stream := some (.device []),
             running := true, hasThread := true }
  else { r with running := true, hasThread := true }

/-- runner.PreciseRunner.stop: if a worker thread exists, clear running,
write one chunk of filler zero bytes when the stream is a ReadWriteStream (to
unblock a pending read), join and drop the thread; then, if pa is set,
terminate pyaudio and drop stream and pa.  Note: neither self.listener nor
self.detector is touched. -/
def PreciseRunnerState.stop (r : PreciseRunnerState) : PreciseRunnerState :=
  let r1 :=
    if r.hasThread then
      match r.stream with
      | some (.rws s) =>
          { r with running := false, hasThread := false,
                   stream := some (.rws (rwsWrite s (List.replicate r.chunk_size 0))) }
      | _ => { r with running := false, hasThread := false }
    else r
  if r1.paActive then { r1 with stream := none, paActive := false } else r1

/-- A concrete PreciseRunner state mid-run: the caller supplied a
ReadWriteStream, the worker is running, and the listener has accumulated one
raw-audio sample and one nonzero feature frame. -/
def leakRunner : PreciseRunnerState :=
  { listener := ⟨[1], [[2]]⟩, stream := some (.rws ⟨[], -1⟩), paActive := false,
    hasThread := true, running := true, chunk_size := 4,
    detector := ⟨4, 1 / 2, 3, 0⟩ }

/-! ## Helper lemmas -/

/-- The Python tail slice l[-k:] has exactly k elements when 0 < k ≤ len(l). -/
theorem pyTailSlice_length {α : Type} (l : List α) (k : Nat) (hk : k ≠ 0)
    (hle : k ≤ l.length) : (pyTailSlice l k).length = k := by
  unfold pyTailSlice
  rw [if_neg hk, List.length_drop]
  omega

/-- The cooldown reset value is strictly negative for every positive chunk
size. -/
theorem cooldownFloor_neg (c : Int) (hc : 0 < c) : cooldownFloor c < 0 := by
  unfold cooldownFloor
  rw [Int.fdiv_eq_ediv _ (le_of_lt hc)]
  exact Int.ediv_neg' (by norm_num) hc

/-- TriggerDetector.update never changes chunk_size, sensitivity or
trigger_level. -/
theorem update_preserves_fields (td : TriggerDetector) (p : ℚ) :
    (td.update p).2.chunk_size = td.chunk_size ∧
    (td.update p).2.sensitivity = td.sensitivity ∧
    (td.update p).2.trigger_level = td.trigger_level := by
  unfold TriggerDetector.update
  split_ifs <;> exact ⟨rfl, rfl, rfl⟩

/-- An above-threshold probability arriving at a nonnegative activation that
is still strictly below trigger_level just increments the counter and returns
False. -/
theorem update_step_count (td : TriggerDetector) (p : ℚ)
    (ha : 0 ≤ td.activation) (hlt : td.activation + 1 ≤ td.trigger_level)
    (hp : 1 - td.sensitivity < p) :
    td.update p = (false, { td with activation := td.activation + 1 }) := by
  unfold TriggerDetector.update
  rw [if_pos (Or.inl hp), if_neg]
  rintro (h | ⟨-, h⟩) <;> omega

/-- An above-threshold probability whose increment crosses trigger_level
returns True and resets the counter to the cooldown floor. -/
theorem update_step_trigger (td : TriggerDetector) (p : ℚ)
    (hgt : td.trigger_level < td.activation + 1) (hp : 1 - td.sensitivity < p) :
    td.update p = (true, { td with activation := cooldownFloor td.chunk_size }) := by
  unfold TriggerDetector.update
  rw [if_pos (Or.inl hp), if_pos (Or.inl hgt), decide_eq_true hgt]

/-- While the counter is in cooldown (activation < 0) and trigger_level is
nonnegative, update returns False for every probability. -/
theorem update_in_cooldown_false (td : TriggerDetector) (p : ℚ)
    (hneg : td.activation < 0) (htl : 0 ≤ td.trigger_level) :
    (td.update p).1 = false := by
  unfold TriggerDetector.update
  rw [if_pos (Or.inr hneg)]
  split_ifs with h
  · exact decide_eq_false (by omega)
  · rfl

/-- One update keeps the activation counter within
[cooldownFloor chunk_size, trigger_level]. -/
theorem update_activation_bounds (td : TriggerDetector) (p : ℚ)
    (hc : 0 < td.chunk_size) (htl : 0 ≤ td.trigger_level)
    (h1 : cooldownFloor td.chunk_size ≤ td.activation)
    (h2 : td.activation ≤ td.trigger_level) :
    cooldownFloor td.chunk_size ≤ (td.update p).2.activation ∧
    (td.update p).2.activation ≤ td.trigger_level := by
  have hneg := cooldownFloor_neg td.chunk_size hc
  unfold TriggerDetector.update
  split_ifs with hA hB hC
  · exact ⟨by dsimp only; omega, by dsimp only; omega⟩
  · have hle : ¬(td.trigger_level < td.activation + 1) := fun h => hB (Or.inl h)
    exact ⟨by dsimp only; omega, by dsimp only; omega⟩
  · exact ⟨by dsimp only; omega, by dsimp only; omega⟩
  · exact ⟨h1, h2⟩

/-- runDetector preserves the constant detector fields and keeps the
activation counter within [cooldownFloor chunk_size, trigger_level]. -/
theorem runDetector_bounds (probs : List ℚ) (td : TriggerDetector)
    (hc : 0 < td.chunk_size) (htl : 0 ≤ td.trigger_level)
    (h1 : cooldownFloor td.chunk_size ≤ td.activation)
    (h2 : td.activation ≤ td.trigger_level) :
    (runDetector td probs).2.chunk_size = td.chunk_size ∧
    (runDetector td probs).2.trigger_level = td.trigger_level ∧
    cooldownFloor td.chunk_size ≤ (runDetector td probs).2.activation ∧
    (runDetector td probs).2.activation ≤ td.trigger_level := by
  induction probs generalizing td with
  | nil => exact ⟨rfl, rfl, h1, h2⟩
  | cons p ps ih =>
    obtain ⟨f1, f2, f3⟩ := update_preserves_fields td p
    obtain ⟨b1, b2⟩ := update_activation_bounds td p hc htl h1 h2
    have hrec := ih (td.update p).2 (by rw [f1]; exact hc) (by rw [f3]; exact htl)
      (by rw [f1]; exact b1) (by rw [f3]; exact b2)
    simp only [runDetector]
    refine ⟨by rw [hrec.1, f1], by rw [hrec.2.1, f3], ?_, ?_⟩
    · have := hrec.2.2.1
      rw [f1] at this
      exact this
    · have := hrec.2.2.2
      rw [f3] at this
      exact this

/-- From a nonnegative activation a with a + k = trigger_level, a run of
k + 1 consecutive above-threshold probabilities yields k Falses followed by
one True, and leaves the detector reset to the cooldown floor. -/
theorem runDetector_above_run (k : Nat) (td : TriggerDetector) (probs : List ℚ)
    (ha : 0 ≤ td.activation) (hk : td.activation + (k : Int) = td.trigger_level)
    (hlen : probs.length = k + 1)
    (hall : ∀ p ∈ probs, 1 - td.sensitivity < p) :
    (runDetector td probs).1 = List.replicate k false ++ [true] ∧
    (runDetector td probs).2 = { td with activation := cooldownFloor td.chunk_size } := by
  induction k generalizing td probs with
  | zero =>
    cases probs with
    | nil => simp at hlen
    | cons p ps =>
      have hps : ps = [] := by
        simp only [List.length_cons] at hlen
        exact List.eq_nil_of_length_eq_zero (by omega)
      subst hps
      have hp := hall p (List.mem_cons_self p [])
      have hstep := update_step_trigger td p (by omega) hp
      simp [runDetector, hstep]
  | succ k ih =>
    cases probs with
    | nil => simp at hlen
    | cons p ps =>
      have hp := hall p (List.mem_cons_self p ps)
      have hstep := update_step_count td p ha (by omega) hp
      have hrec := ih { td with activation := td.activation + 1 } ps
        (by dsimp only; omega) (by dsimp only; push_cast at hk ⊢; omega)
        (by simpa using hlen)
        (fun q hq => hall q (List.mem_cons_of_mem p hq))
      simp only [runDetector, hstep]
      refine ⟨?_, hrec.2⟩
      rw [hrec.1, List.replicate_succ]
      rfl

/-! ## Claim theorems: TriggerDetector -/

/-- Claim C4: starting from activation = 0, for every sequence of
trigger_level + 1 consecutive probabilities each strictly above
1 - sensitivity (with trigger_level ≥ 1 and a positive chunk size), update
returns False on the first trigger_level calls and True exactly on the
(trigger_level + 1)-th; immediately afterwards activation < 0 (cooldown), and
every further above-threshold probability delivered to a detector with this
trigger_level while its activation is negative returns False. -/
theorem claim_C4_trigger_sequence (c : Int) (sens : ℚ) (tl : Int) (probs : List ℚ)
    (hc : 0 < c) (htl : 1 ≤ tl) (hlen : probs.length = tl.toNat + 1)
    (hall : ∀ p ∈ probs, 1 - sens < p) :
    (runDetector ⟨c, sens, tl, 0⟩ probs).1 = List.replicate tl.toNat false ++ [true] ∧
    (runDetector ⟨c, sens, tl, 0⟩ probs).2.activation < 0 ∧
    ∀ (td2 : TriggerDetector) (p : ℚ), td2.trigger_level = tl →
      td2.activation < 0 → 1 - td2.sensitivity < p → (td2.update p).1 = false := by
  obtain ⟨h1, h2⟩ := runDetector_above_run tl.toNat ⟨c, sens, tl, 0⟩ probs
    (le_refl 0) (by dsimp only; omega) hlen hall
  refine ⟨h1, ?_, ?_⟩
  · rw [h2]
    exact cooldownFloor_neg c hc
  · intro td2 p htl2 hneg _hp
    exact update_in_cooldown_false td2 p hneg (by omega)

/-- Concrete instantiation of claim C4 at chunk size 2048, sensitivity 0.5,
trigger level 1 and the probability sequence [1, 1]. -/
theorem claim_C4_trigger_sequence_witness :
    ((0 : Int) < 2048) ∧ ((1 : Int) ≤ 1) ∧
    (([(1 : ℚ), 1]).length = (1 : Int).toNat + 1) ∧
    (∀ p ∈ [(1 : ℚ), 1], 1 - (1 / 2 : ℚ) < p) ∧
    ((runDetector ⟨2048, 1 / 2, 1, 0⟩ [1, 1]).1 =
       List.replicate (1 : Int).toNat false ++ [true] ∧
     (runDetector ⟨2048, 1 / 2, 1, 0⟩ [1, 1]).2.activation < 0 ∧
     ∀ (td2 : TriggerDetector) (p : ℚ), td2.trigger_level = 1 →
       td2.activation < 0 → 1 - td2.sensitivity < p → (td2.update p).1 = false) := by
  have hall : ∀ p ∈ [(1 : ℚ), 1], 1 - (1 / 2 : ℚ) < p := by
    intro p hp
    simp at hp
    subst hp
    norm_num
  exact ⟨by norm_num, le_refl 1, by norm_num,
    hall, claim_C4_trigger_sequence 2048 (1 / 2) 1 [1, 1] (by norm_num)
      (le_refl 1) (by norm_num) hall⟩

/-- Claim C6: whenever TriggerDetector.update takes the reset branch (entry
into the incremented-counter branch together with the reset condition:
has_activated, or chunk_activated while the incremented counter is still
negative), the stored counter is exactly -(8 * 2048) // chunk_size, Python
floor division, for every chunk size > 0 — including chunk sizes that do not
divide 8 * 2048. -/
theorem claim_C6_cooldown_reset_value (td : TriggerDetector) (p : ℚ)
    (hc : 0 < td.chunk_size)
    (hentry : 1 - td.sensitivity < p ∨ td.activation < 0)
    (hreset : td.trigger_level < td.activation + 1 ∨
      (1 - td.sensitivity < p ∧ td.activation + 1 < 0)) :
    (td.update p).2.activation = Int.fdiv (-(8 * 2048)) td.chunk_size := by
  unfold TriggerDetector.update
  rw [if_pos hentry, if_pos hreset]
  rfl

/-- Concrete instantiation of claim C6 at chunk size 3000, which does not
divide 8 * 2048 = 16384: the stored value is the floor quotient. -/
theorem claim_C6_cooldown_reset_value_witness :
    ((0 : Int) < 3000) ∧
    ((1 : ℚ) - 1 / 2 < 1 ∨ (0 : Int) < 0) ∧
    ((0 : Int) < 0 + 1 ∨ ((1 : ℚ) - 1 / 2 < 1 ∧ (0 : Int) + 1 < 0)) ∧
    (TriggerDetector.update ⟨3000, 1 / 2, 0, 0⟩ 1).2.activation =
      Int.fdiv (-(8 * 2048)) 3000 :=
  ⟨by norm_num, Or.inl (by norm_num), Or.inl (by norm_num),
   claim_C6_cooldown_reset_value ⟨3000, 1 / 2, 0, 0⟩ 1 (by norm_num)
     (Or.inl (by norm_num)) (Or.inl (by norm_num))⟩

/-- Claim C8: for every detector with chunk_size > 0 and trigger_level ≥ 0
and every finite probability sequence starting from activation = 0, after
each update call (i.e. after every prefix of the sequence) the activation
counter satisfies -(8*2048) // chunk_size ≤ activation ≤ trigger_level. -/
theorem claim_C8_activation_bounds (c : Int) (sens : ℚ) (tl : Int)
    (probs : List ℚ) (i : Nat) (hc : 0 < c) (htl : 0 ≤ tl) :
    Int.fdiv (-(8 * 2048)) c ≤
      (runDetector ⟨c, sens, tl, 0⟩ (List.take i probs)).2.activation ∧
    (runDetector ⟨c, sens, tl, 0⟩ (List.take i probs)).2.activation ≤ tl := by
  have h := runDetector_bounds (List.take i probs) ⟨c, sens, tl, 0⟩ hc htl
    (le_of_lt (cooldownFloor_neg c hc)) htl
  exact ⟨h.2.2.1, h.2.2.2⟩

/-- Concrete instantiation of claim C8 at chunk size 2048, sensitivity 0.5,
trigger level 3, five above-threshold probabilities, prefix length 5. -/
theorem claim_C8_activation_bounds_witness :
    ((0 : Int) < 2048) ∧ ((0 : Int) ≤ 3) ∧
    (Int.fdiv (-(8 * 2048)) 2048 ≤
       (runDetector ⟨2048, 1 / 2, 3, 0⟩ (List.take 5 [1, 1, 1, 1, 1])).2.activation ∧
     (runDetector ⟨2048, 1 / 2, 3, 0⟩ (List.take 5 [1, 1, 1, 1, 1])).2.activation ≤ 3) :=
  ⟨by norm_num, by norm_num,
   claim_C8_activation_bounds 2048 (1 / 2) 3 [1, 1, 1, 1, 1] 5 (by norm_num) (by norm_num)⟩

/-- Claim C9: at activation = -1, an above-threshold probability increments
the counter to 0 (ending the cooldown, with no reset to the floor) and
returns False (for trigger_level ≥ 0); from the resulting counter value 0, a
run of trigger_level + 1 above-threshold probabilities activates again (its
last output is True). -/
theorem claim_C9_cooldown_exit (c : Int) (sens : ℚ) (tl : Int) (p : ℚ)
    (probs : List ℚ) (htl : 0 ≤ tl) (hp : 1 - sens < p)
    (hlen : probs.length = tl.toNat + 1) (hall : ∀ q ∈ probs, 1 - sens < q) :
    TriggerDetector.update ⟨c, sens, tl, -1⟩ p = (false, ⟨c, sens, tl, 0⟩) ∧
    ((runDetector ⟨c, sens, tl, 0⟩ probs).1).getLast? = some true := by
  constructor
  · unfold TriggerDetector.update
    rw [if_pos (Or.inl hp), if_neg]
    · norm_num
    · rintro (h | ⟨-, h⟩) <;> dsimp only at h <;> omega
  · obtain ⟨h1, -⟩ := runDetector_above_run tl.toNat ⟨c, sens, tl, 0⟩ probs
      (le_refl 0) (by dsimp only; omega) hlen hall
    rw [h1, List.getLast?_concat]

/-- Concrete instantiation of claim C9 at chunk size 2048, sensitivity 0.5,
trigger level 0, probability 1 arriving at activation = -1, then the
single-element run [1]. -/
theorem claim_C9_cooldown_exit_witness :
    ((0 : Int) ≤ 0) ∧ ((1 : ℚ) - 1 / 2 < 1) ∧
    (([(1 : ℚ)]).length = (0 : Int).toNat + 1) ∧
    (∀ q ∈ [(1 : ℚ)], 1 - (1 / 2 : ℚ) < q) ∧
    (TriggerDetector.update ⟨2048, 1 / 2, 0, -1⟩ 1 = (false, ⟨2048, 1 / 2, 0, 0⟩) ∧
     ((runDetector ⟨2048, 1 / 2, 0, 0⟩ [1]).1).getLast? = some true) := by
  have hall : ∀ q ∈ [(1 : ℚ)], 1 - (1 / 2 : ℚ) < q := by
    intro q hq
    simp only [List.mem_singleton] at hq
    subst hq
    norm_num
  exact ⟨le_refl 0, by norm_num, by norm_num, hall,
    claim_C9_cooldown_exit 2048 (1 / 2) 0 1 [1] (le_refl 0) (by norm_num)
      (by norm_num) hall⟩

/-! ## Claim theorems: Listener feature window -/

/-- One ingest step of Listener.update_vectors leaves the number of rows of
the feature matrix unchanged, for every vectorizer output, provided the
matrix is nonempty.  (At a zero-row matrix the Python slice
new_features[-0:] would keep everything and the row count could grow.) -/
theorem ingestAudio_mfccs_length (vec : List ℚ → List (List ℚ))
    (ws hs : Nat) (st : ListenerState) (audio : List ℚ)
    (hL : 1 ≤ st.mfccs.length) :
    (ingestAudio vec ws hs st audio).mfccs.length = st.mfccs.length := by
  unfold ingestAudio
  split_ifs with hw
  · dsimp only
    unfold newFrames
    split_ifs with hlt
    · have hk : (pyTailSlice (vec (st.window_audio ++ audio)) st.mfccs.length).length
          = st.mfccs.length :=
        pyTailSlice_length _ _ (by omega) (le_of_lt hlt)
      rw [List.length_append, List.length_drop, hk]
      omega
    · rw [List.length_append, List.length_drop]
      omega
  · rfl

/-- Claim C5: the feature matrix row count is invariant: starting from any
listener state whose matrix has n_features ≥ 1 rows (as produced by
construction or clear), every sequence of update_vectors calls — whether a
call yields zero, some, or more-than-capacity new frames, for an arbitrary
external vectorizer — leaves the matrix with exactly n_features rows. -/
theorem claim_C5_matrix_size_invariant (vec : List ℚ → List (List ℚ))
    (ws hs nF nM : Nat) (inputs : List AudioInput) (hF : 1 ≤ nF) :
    (runListener vec ws hs (initListener nF nM) inputs).mfccs.length = nF := by
  have key : ∀ (is : List AudioInput) (st : ListenerState),
      st.mfccs.length = nF → (runListener vec ws hs st is).mfccs.length = nF := by
    intro is
    induction is with
    | nil =>
      intro st h
      simpa [runListener] using h
    | cons i is ih =>
      intro st h
      have hlen : (update_vectors vec ws hs st i).1.mfccs.length = st.mfccs.length := by
        unfold update_vectors
        cases hdec : decodeInput i with
        | error e => rfl
        | ok audio => exact ingestAudio_mfccs_length vec ws hs st audio (by omega)
      simp only [runListener]
      exact ih _ (by omega)
  exact key inputs _ (by simp [initListener])

/-- Concrete instantiation of claim C5: a vectorizer that always yields three
frames, window 1, hop 1, a 2-row matrix and one two-sample ingest (the
more-frames-than-capacity case). -/
theorem claim_C5_matrix_size_invariant_witness :
    (1 ≤ 2) ∧
    (runListener (fun _ => [[(0 : ℚ)], [0], [0]]) 1 1 (initListener 2 1)
      [AudioInput.samples [0, 0]]).mfccs.length = 2 :=
  ⟨by norm_num,
   claim_C5_matrix_size_invariant (fun _ => [[(0 : ℚ)], [0], [0]]) 1 1 2 1
     [AudioInput.samples [0, 0]] (by norm_num)⟩

/-- Claim C7: a zero-length byte chunk — passed directly as empty bytes, or
obtained from a stream read that returned empty — makes update_vectors raise
EOFError, and the listener state (raw-audio tail and feature matrix) is the
unchanged pre-call state, since the raise happens before any mutation. -/
theorem claim_C7_empty_chunk_eof (vec : List ℚ → List (List ℚ))
    (ws hs : Nat) (st : ListenerState) :
    update_vectors vec ws hs st (.chunk []) = (st, .error ()) ∧
    update_vectors vec ws hs st (.streamRead []) = (st, .error ()) :=
  ⟨rfl, rfl⟩

/-- Claim C10: an already-decoded sample array of length zero does not raise
the end-of-stream signal, unlike an empty byte chunk: the call completes
normally (no EOFError) and returns the current feature matrix of the listener. -/
theorem claim_C10_empty_ndarray_ok (vec : List ℚ → List (List ℚ))
    (ws hs : Nat) (st : ListenerState) :
    (update_vectors vec ws hs st (.samples [])).2 =
      .ok (update_vectors vec ws hs st (.samples [])).1.mfccs ∧
    (update_vectors vec ws hs st (.samples [])).2 ≠ .error () :=
  ⟨rfl, by simp [update_vectors, decodeInput]⟩

/-! ## Claim theorems: ReadWriteStream chopping -/

/-- Claim C3 evaluation at the failing input: a 4-byte buffer with
chop_samples = 2 (length a nonzero exact multiple of the threshold, and
strictly above it).  The claim and spec say the chop phase must leave
length mod chop = 0 bytes; the code executes buffer[-0:], which is the whole
buffer, so read(1) then extracts a byte from data the claim says must have
been dropped. -/
theorem claim_C3_chop_exact_multiple_eval :
    ((4 : Nat) % 2 = 0) ∧
    (rwsChop ⟨[10, 11, 12, 13], 2⟩).buffer = [10, 11, 12, 13] ∧
    rwsRead ⟨[10, 11, 12, 13], 2⟩ 1 = ([10], ⟨[11, 12, 13], 2⟩) :=
  ⟨rfl, rfl, rfl⟩

/-! ## Claim theorems: PreciseRunner lifecycle -/

/-- Claim C2 evaluation at the failing input: a runner whose listener
accumulated window_audio = [1] and mfccs = [[2]] during a run.  After stop()
followed by start(), the new run begins with exactly the old listener state —
the raw-audio tail is not empty and the matrix is not zeroed, because neither
start() nor stop() ever calls Listener.clear. -/
theorem claim_C2_state_leak_eval :
    (leakRunner.stop.start).listener.window_audio = [1] ∧
    (leakRunner.stop.start).listener.mfccs = [[2]] ∧
    (leakRunner.stop.start).running = true ∧
    (leakRunner.stop.start).hasThread = true ∧
    (leakRunner.stop.start).listener.window_audio ≠ [] := by
  refine ⟨rfl, rfl, rfl, rfl, ?_⟩
  rw [show (leakRunner.stop.start).listener.window_audio = [1] from rfl]
  simp

/-! ## Claim theorems: ListenerParams construction -/

/-- Claim C1 counterexample: the parameter combination with buffer_t = 0.5 <
window_t = 1.0 is invalid per the claim (it makes n_features < 1), yet
constructing a ListenerParams from it succeeds (returns some) rather than
failing — the class performs no validation. -/
theorem claim_C1_counterexample :
    mkListenerParams 1 (1 / 50) (1 / 2) 16000 2 13 32 256 false 2 [(6, 4)] (1 / 5)
      = some lpInvalid ∧
    lpInvalid.buffer_t < lpInvalid.window_t ∧
    lpInvalid.n_features < 1 ∧
    (mkListenerParams 1 (1 / 50) (1 / 2) 16000 2 13 32 256 false 2 [(6, 4)]
      (1 / 5)).isSome = true := by
  refine ⟨rfl, by norm_num [lpInvalid], ?_, rfl⟩
  have hh : lpInvalid.hop_samples = 320 := by
    norm_num [ListenerParams.hop_samples, pyInt, lpInvalid]
  have hw : lpInvalid.window_samples = 16000 := by
    norm_num [ListenerParams.window_samples, pyInt, lpInvalid]
  have hb : lpInvalid.buffer_samples = 8000 := by
    have hs : pyInt (lpInvalid.sample_rate * lpInvalid.buffer_t + 1 / 2) = 8000 := by
      norm_num [pyInt, lpInvalid]
    unfold ListenerParams.buffer_samples
    rw [hh, hs]
    decide
  unfold ListenerParams.n_features
  rw [hh, hw, hb]
  norm_num

/-- Claim C1 amended: constructing a ListenerParams never fails, for every
parameter combination — including sample_rate ≤ 0, hop_t ≤ 0 and
buffer_t < window_t; no fail-fast validation exists in the class. -/
theorem claim_C1_construction_never_fails (window_t hop_t buffer_t sample_rate : ℚ)
    (sample_depth n_mfcc n_filt n_fft : Nat) (use_delta : Bool) (vectorizer : Nat)
    (threshold_config : List (Int × Int)) (threshold_center : ℚ) :
    (mkListenerParams window_t hop_t buffer_t sample_rate sample_depth n_mfcc
      n_filt n_fft use_delta vectorizer threshold_config threshold_center).isSome
      = true :=
  rfl

end PreciseLite
